import Mathlib

/-!
Formal model of the SCKAN connectivity synchronisation tool
(src/tools/sckan_connectivity.py): the load, extract and restore commands
operating on the local knowledge store, together with theorems settling
specification claims about them.

Modelling conventions:
- JSON documents are the inductive type Json; JSON numbers are modelled as
  integers (no claim depends on float behaviour) and objects as association
  lists with string keys, first binding visible.
- The SQLite tables knowledge, labels, publications and connectivity_nodes
  are lists of rows; values bound into SQL statements are Json scalars and
  row equality is structural. SQLite type coercions are not modelled.
- Fallible Python code is modelled in the Except monad. A restore returns
  its committed store: the only commit of restore is its last step
  (source line 143), so a failed attempt rolls back to the prior state,
  while load commits its deletions before the fetch loop
  (source lines 53 to 55).
-/

/-- JSON values, as produced by json.load in the tool. -/
inductive Json where
  | null
  | bool (b : Bool)
  | num (n : Int)
  | str (s : String)
  | arr (xs : List Json)
  | obj (kvs : List (String × Json))

mutual

def Json.decEq : (a b : Json) → Decidable (a = b)
  | .null, .null => .isTrue rfl
  | .bool a, .bool b =>
      if h : a = b then .isTrue (by rw [h]) else .isFalse (fun c => h (Json.bool.inj c))
  | .num a, .num b =>
      if h : a = b then .isTrue (by rw [h]) else .isFalse (fun c => h (Json.num.inj c))
  | .str a, .str b =>
      if h : a = b then .isTrue (by rw [h]) else .isFalse (fun c => h (Json.str.inj c))
  | .arr xs, .arr ys =>
      match Json.decEqElems xs ys with
      | .isTrue h => .isTrue (by rw [h])
      | .isFalse h => .isFalse (fun c => h (Json.arr.inj c))
  | .obj xs, .obj ys =>
      match Json.decEqKvs xs ys with
      | .isTrue h => .isTrue (by rw [h])
      | .isFalse h => .isFalse (fun c => h (Json.obj.inj c))
  | .null, .bool _ => .isFalse (fun c => Json.noConfusion c)
  | .null, .num _ => .isFalse (fun c => Json.noConfusion c)
  | .null, .str _ => .isFalse (fun c => Json.noConfusion c)
  | .null, .arr _ => .isFalse (fun c => Json.noConfusion c)
  | .null, .obj _ => .isFalse (fun c => Json.noConfusion c)
  | .bool _, .null => .isFalse (fun c => Json.noConfusion c)
  | .bool _, .num _ => .isFalse (fun c => Json.noConfusion c)
  | .bool _, .str _ => .isFalse (fun c => Json.noConfusion c)
  | .bool _, .arr _ => .isFalse (fun c => Json.noConfusion c)
  | .bool _, .obj _ => .isFalse (fun c => Json.noConfusion c)
  | .num _, .null => .isFalse (fun c => Json.noConfusion c)
  | .num _, .bool _ => .isFalse (fun c => Json.noConfusion c)
  | .num _, .str _ => .isFalse (fun c => Json.noConfusion c)
  | .num _, .arr _ => .isFalse (fun c => Json.noConfusion c)
  | .num _, .obj _ => .isFalse (fun c => Json.noConfusion c)
  | .str _, .null => .isFalse (fun c => Json.noConfusion c)
  | .str _, .bool _ => .isFalse (fun c => Json.noConfusion c)
  | .str _, .num _ => .isFalse (fun c => Json.noConfusion c)
  | .str _, .arr _ => .isFalse (fun c => Json.noConfusion c)
  | .str _, .obj _ => .isFalse (fun c => Json.noConfusion c)
  | .arr _, .null => .isFalse (fun c => Json.noConfusion c)
  | .arr _, .bool _ => .isFalse (fun c => Json.noConfusion c)
  | .arr _, .num _ => .isFalse (fun c => Json.noConfusion c)
  | .arr _, .str _ => .isFalse (fun c => Json.noConfusion c)
  | .arr _, .obj _ => .isFalse (fun c => Json.noConfusion c)
  | .obj _, .null => .isFalse (fun c => Json.noConfusion c)
  | .obj _, .bool _ => .isFalse (fun c => Json.noConfusion c)
  | .obj _, .num _ => .isFalse (fun c => Json.noConfusion c)
  | .obj _, .str _ => .isFalse (fun c => Json.noConfusion c)
  | .obj _, .arr _ => .isFalse (fun c => Json.noConfusion c)

def Json.decEqElems : (xs ys : List Json) → Decidable (xs = ys)
  | [], [] => .isTrue rfl
  | x :: xs, y :: ys =>
      match Json.decEq x y, Json.decEqElems xs ys with
      | .isTrue h1, .isTrue h2 => .isTrue (by rw [h1, h2])
      | .isFalse h1, _ => .isFalse (by intro c; injection c with hh ht; exact h1 hh)
      | _, .isFalse h2 => .isFalse (by intro c; injection c with hh ht; exact h2 ht)
  | [], _ :: _ => .isFalse (fun c => List.noConfusion c)
  | _ :: _, [] => .isFalse (fun c => List.noConfusion c)

def Json.decEqKvs : (xs ys : List (String × Json)) → Decidable (xs = ys)
  | [], [] => .isTrue rfl
  | (k, x) :: xs, (l, y) :: ys =>
      if hk : k = l then
        match Json.decEq x y, Json.decEqKvs xs ys with
        | .isTrue h1, .isTrue h2 => .isTrue (by rw [hk, h1, h2])
        | .isFalse h1, _ =>
            .isFalse (by intro c; injection c with hh ht; injection hh with h3 h4; exact h1 h4)
        | _, .isFalse h2 => .isFalse (by intro c; injection c with hh ht; exact h2 ht)
      else .isFalse (by intro c; injection c with hh ht; injection hh with h3 h4; exact hk h3)
  | [], _ :: _ => .isFalse (fun c => List.noConfusion c)
  | _ :: _, [] => .isFalse (fun c => List.noConfusion c)

end

instance : DecidableEq Json :=
  Json.decEq

instance exceptDecEq {ε α : Type} [DecidableEq ε] [DecidableEq α] :
    DecidableEq (Except ε α)
  | .ok x, .ok y =>
      if h : x = y then .isTrue (by rw [h])
      else .isFalse (fun c => h (Except.ok.inj c))
  | .ok _, .error _ => .isFalse (fun c => Except.noConfusion c)
  | .error _, .ok _ => .isFalse (fun c => Except.noConfusion c)
  | .error e, .error f =>
      if h : e = f then .isTrue (by rw [h])
      else .isFalse (fun c => h (Except.error.inj c))

/-- Errors raised by the Python code and the SQLite layer during an
operation of the tool. -/
inductive Err where
  | keyError
  | typeError
  | indexError
  | interfaceError
  | integrityError
  | sqlError
  | remoteUnavailable
  | fetchError
deriving DecidableEq

/-- Lookup of a string key in a parsed JSON object, first binding. -/
def kvLookup : List (String × Json) → String → Option Json
  | [], _ => none
  | (k1, v) :: rest, k => if k == k1 then some v else kvLookup rest k

/-- Key presence in a parsed JSON object. -/
def kvHas : List (String × Json) → String → Bool
  | [], _ => false
  | (k1, _) :: rest, k => k == k1 || kvHas rest k

/-- Python subscription v[k] with a string key: obj lookup (KeyError when the
key is absent), TypeError on every non dict value. -/
def pyGetItem (v : Json) (k : String) : Except Err Json :=
  match v with
  | .obj kvs =>
      match kvLookup kvs k with
      | some w => .ok w
      | none => .error .keyError
  | _ => .error .typeError

/-- Python membership test `k in v` for a dict; the tool only evaluates it on
values that already passed a dict subscription. -/
def hasKey (v : Json) (k : String) : Bool :=
  match v with
  | .obj kvs => kvHas kvs k
  | _ => false

/-- Value of key k, meaningful when hasKey holds. -/
def jget (v : Json) (k : String) : Json :=
  match v with
  | .obj kvs => (kvLookup kvs k).getD .null
  | _ => .null

/-- Python iteration `for x in v`: a list yields its elements, a string its
one character substrings, a dict its keys; other values raise TypeError. -/
def pyIter (v : Json) : Except Err (List Json) :=
  match v with
  | .arr xs => .ok xs
  | .str s => .ok (s.data.map (fun c => Json.str c.toString))
  | .obj kvs => .ok (kvs.map (fun p => Json.str p.1))
  | _ => .error .typeError

/-- Python subscription v[i] with a non negative integer index: list or
string indexing (IndexError past the end), TypeError otherwise; a dict with
string keys raises on an integer key. -/
def pyIndex (v : Json) (i : Nat) : Except Err Json :=
  match v with
  | .arr xs =>
      match xs.get? i with
      | some x => .ok x
      | none => .error .indexError
  | .str s =>
      match s.data.get? i with
      | some c => .ok (.str c.toString)
      | none => .error .indexError
  | _ => .error .typeError

/-- Python tuple(v): accepts exactly the iterable values. -/
def pyTuple (v : Json) : Except Err (List Json) :=
  pyIter v

/-- Values the sqlite3 driver accepts as statement parameters: scalars; a
list or dict parameter raises InterfaceError. -/
def bindable : Json → Bool
  | .arr _ => false
  | .obj _ => false
  | _ => true

def checkBind (v : Json) : Except Err Unit :=
  if bindable v then .ok () else .error .interfaceError

/-- Python hashability of a JSON derived value: scalars hash, lists and
dicts raise TypeError when put in a set. -/
def hashable : Json → Bool
  | .arr _ => false
  | .obj _ => false
  | _ => true

/-- A row of the knowledge table: source, entity, stored payload. -/
abbrev KRow := Json × Json × Json

/-- A row of the labels table: entity, label. -/
abbrev LRow := Json × Json

/-- A row of the publications table: source, entity, publication. -/
abbrev PRow := Json × Json × Json

/-- A row of the connectivity_nodes table: source, node, path entity. -/
abbrev CRow := Json × Json × Json

/-- The four SQLite tables of the knowledge store that the tool touches. -/
structure Store where
  knowledge : List KRow
  labels : List LRow
  publications : List PRow
  connectivity_nodes : List CRow
deriving DecidableEq

def emptyStore : Store :=
  { knowledge := [], labels := [], publications := [], connectivity_nodes := [] }

/-- Delete of all rows of the given source from the knowledge and
connectivity_nodes tables (source lines 120 and 121, also lines 53 and 54
of load). -/
def sourceDeletes (ks : Json) (s : Store) : Store :=
  { s with
    knowledge := s.knowledge.filter (fun r => !(r.1 == ks)),
    connectivity_nodes := s.connectivity_nodes.filter (fun r => !(r.1 == ks)) }

/-- Modelled from the spec: store.clean_connectivity (source line 119) is a
method of the external KnowledgeStore package; the restore description of
the spec only requires the deletion of the rows of the source, which the
two explicit deletes of lines 120 and 121 perform, so the call is modelled
as touching none of the four modelled tables. -/
def clean_connectivity (_ks : Json) (s : Store) : Store :=
  s

/-- Whether the knowledge table already holds a row keyed (source, entity). -/
def kHas (ks entity : Json) (rows : List KRow) : Bool :=
  rows.any (fun r => r.1 == ks && r.2.1 == entity)

/-- Replace semantics of `replace into labels values (?, ?)` (source
line 128) together with the spec schema unique(entity) on labels: the old
row of the entity, if any, is superseded. -/
def applyLop (lop : Option LRow) (rows : List LRow) : List LRow :=
  match lop with
  | none => rows
  | some (e, v) => rows.filter (fun p => !(p.1 == e)) ++ [(e, v)]

/-- The label branch of a record (source lines 127 and 128), as the
optional labels row it binds: present when the record has a label key,
whose value must be bindable. -/
def labelPlan (entity : Json) (rec : Json) : Except Err (Option LRow) :=
  if hasKey rec "label" then
    match checkBind (jget rec "label") with
    | .error e => .error e
    | .ok _ => .ok (some (entity, jget rec "label"))
  else .ok none

def labelStep (entity : Json) (rec : Json) (t : Store) : Except Err Store :=
  match labelPlan entity rec with
  | .error e => .error e
  | .ok lop => .ok { t with labels := applyLop lop t.labels }

/-- Column list of the INSERT of source line 132. -/
def publicationsInsertColumns : List String :=
  ["source", "entity", "publication"]

/-- Number of placeholders written in the VALUES clause of that INSERT:
the source writes values (?, ?) for the three named columns. -/
def publicationsInsertPlaceholders : Nat :=
  2

/-- SQLite prepares the statement of an executemany call before consuming
any parameter row and rejects an INSERT whose column list and VALUES clause
disagree in arity, so the call of source line 132 raises OperationalError
even for an empty references list. -/
def prepareManyPubs : Except Err Unit :=
  if publicationsInsertColumns.length = publicationsInsertPlaceholders then .ok ()
  else .error .sqlError

/-- The references branch of a record reduced to its observable outcome:
taken, it always fails at statement preparation. -/
def refsPlan (rec : Json) : Except Err Unit :=
  if hasKey rec "references" then prepareManyPubs else .ok ()

/-- The references branch on the store (source lines 129 to 133): delete
the publications of (source, entity), then the executemany whose statement
fails to prepare; on the impossible success the pending deletion would
stand. -/
def refsStep (ks entity : Json) (rec : Json) (t : Store) : Except Err Store :=
  if hasKey rec "references" then
    let t1 := { t with
      publications := t.publications.filter (fun p => !(p.1 == ks && p.2.1 == entity)) }
    match prepareManyPubs with
    | .error e => .error e
    | .ok _ => .ok t1
  else .ok t

/-- Serialisation json.dumps((term, tuple(qualifiers))) of a node key
(source line 142): a JSON array of the term and the qualifier array. -/
def encodeNode (n0 : Json) (quals : List Json) : Json :=
  .arr [n0, .arr quals]

/-- One node of an edge (source lines 137 to 142): take node[0] and
tuple(node[1]), hash the pair for the set membership test, and append a
connectivity_nodes row on first sighting. -/
def connNodes (ks entity : Json) (seen : List (Json × List Json)) (rows : List CRow) :
    List Json → Except Err (List (Json × List Json) × List CRow)
  | [] => .ok (seen, rows)
  | node :: rest =>
    match pyIndex node 0 with
    | .error e => .error e
    | .ok n0 =>
    match pyIndex node 1 with
    | .error e => .error e
    | .ok n1 =>
    match pyTuple n1 with
    | .error e => .error e
    | .ok quals =>
    if hashable n0 && quals.all hashable then
      if (n0, quals) ∈ seen then connNodes ks entity seen rows rest
      else
        connNodes ks entity ((n0, quals) :: seen)
          (rows ++ [(ks, encodeNode n0 quals, entity)]) rest
    else .error .typeError

/-- One edge of the connectivity list (source line 136): iterate its
nodes. -/
def connEdges (ks entity : Json) (seen : List (Json × List Json)) (rows : List CRow) :
    List Json → Except Err (List (Json × List Json) × List CRow)
  | [] => .ok (seen, rows)
  | edge :: rest =>
    match pyIter edge with
    | .error e => .error e
    | .ok nodes =>
    match connNodes ks entity seen rows nodes with
    | .error e => .error e
    | .ok st => connEdges ks entity st.1 st.2 rest

/-- The connectivity_nodes rows one record contributes (source lines 134
to 142); the seen set starts empty for each record. -/
def connRows (ks entity conn : Json) : Except Err (List CRow) :=
  match pyIter conn with
  | .error e => .error e
  | .ok edges =>
  match connEdges ks entity [] [] edges with
  | .error e => .error e
  | .ok st => .ok st.2

def connPlan (ks entity : Json) (rec : Json) : Except Err (List CRow) :=
  if hasKey rec "connectivity" then connRows ks entity (jget rec "connectivity")
  else .ok []

def connStep (ks entity : Json) (rec : Json) (t : Store) : Except Err Store :=
  match connPlan ks entity rec with
  | .error e => .error e
  | .ok rows => .ok { t with connectivity_nodes := t.connectivity_nodes ++ rows }

/-- Processing of one snapshot record by restore (source lines 122 to 142):
read its id, insert the knowledge row storing the whole record as payload,
then the label, references and connectivity branches. The uniqueness
failure of the insert is modelled from the spec: unique(source, entity) on
the knowledge table makes the INSERT of line 124 raise IntegrityError on a
duplicate key. -/
def restoreRecord (ks : Json) (t : Store) (rec : Json) : Except Err Store :=
  match pyGetItem rec "id" with
  | .error e => .error e
  | .ok entity =>
  match checkBind entity with
  | .error e => .error e
  | .ok _ =>
  if kHas ks entity t.knowledge then .error .integrityError
  else
    let t1 := { t with knowledge := t.knowledge ++ [(ks, entity, rec)] }
    match labelStep entity rec t1 with
    | .error e => .error e
    | .ok t2 =>
    match refsStep ks entity rec t2 with
    | .error e => .error e
    | .ok t3 => connStep ks entity rec t3

/-- The loop over the records of the snapshot (source line 122). -/
def restoreRecords (ks : Json) (t : Store) : List Json → Except Err Store
  | [] => .ok t
  | rec :: recs =>
    match restoreRecord ks t rec with
    | .error e => .error e
    | .ok t1 => restoreRecords ks t1 recs

/-- The restore operation on a parsed snapshot (source lines 108 to 143):
read the source id, clean derived data, delete the rows of the source, then
process each record; the resulting store is the one committed by the single
commit of line 143. -/
def restoreRun (snap : Json) (s : Store) : Except Err Store :=
  match pyGetItem snap "source" with
  | .error e => .error e
  | .ok ks =>
  let s0 := clean_connectivity ks s
  match checkBind ks with
  | .error e => .error e
  | .ok _ =>
  let s1 := sourceDeletes ks s0
  match pyGetItem snap "knowledge" with
  | .error e => .error e
  | .ok kv =>
  match pyIter kv with
  | .error e => .error e
  | .ok recs => restoreRecords ks s1 recs

/-- The committed store after a restore attempt: the transaction is open
from the first statement to the commit of source line 143, so an error
anywhere rolls every pending change back (spec section 4.1 contract,
realised by the sqlite3 connection discarding an uncommitted
transaction). -/
def restoreResult (snap : Json) (s : Store) : Store :=
  match restoreRun snap s with
  | .ok u => u
  | .error _ => s

/-- The store independent part of the processing of one record: its
knowledge row, its optional labels row and its connectivity_nodes rows,
evaluated in source order; used to characterise restoreRecord. -/
structure RecPlan where
  krow : KRow
  lop : Option LRow
  crows : List CRow

def recPlan (ks : Json) (rec : Json) : Except Err RecPlan :=
  match pyGetItem rec "id" with
  | .error e => .error e
  | .ok entity =>
  match checkBind entity with
  | .error e => .error e
  | .ok _ =>
  match labelPlan entity rec with
  | .error e => .error e
  | .ok lop =>
  match refsPlan rec with
  | .error e => .error e
  | .ok _ =>
  match connPlan ks entity rec with
  | .error e => .error e
  | .ok crows => .ok ⟨(ks, entity, rec), lop, crows⟩

def recPlans (ks : Json) : List Json → Except Err (List RecPlan)
  | [] => .ok []
  | rec :: recs =>
    match recPlan ks rec with
    | .error e => .error e
    | .ok pl =>
    match recPlans ks recs with
    | .error e => .error e
    | .ok pls => .ok (pl :: pls)

/-- Effect of one successfully processed record on the store. -/
def applyPlan (pl : RecPlan) (t : Store) : Store :=
  { t with
    knowledge := t.knowledge ++ [pl.krow],
    labels := applyLop pl.lop t.labels,
    connectivity_nodes := t.connectivity_nodes ++ pl.crows }

/-- Sequence of label replacements, oldest first. -/
def applyLops (ops : List LRow) (rows : List LRow) : List LRow :=
  ops.foldl (fun acc op => applyLop (some op) acc) rows

/-- Assignment d[id] = v on a parsed JSON object: overwrite the first
binding of the key in place, or append a new binding. -/
def setKeyKvs : List (String × Json) → Json → List (String × Json)
  | [], entity => [("id", entity)]
  | (k, v) :: rest, entity =>
    if k == "id" then ("id", entity) :: rest else (k, v) :: setKeyKvs rest entity

/-- Injection knowledge[id] = entity done while extracting a row (source
line 98); a payload that is not a JSON object rejects the assignment. -/
def injectId (entity payload : Json) : Except Err Json :=
  match payload with
  | .obj kvs => .ok (.obj (setKeyKvs kvs entity))
  | _ => .error .typeError

/-- Total form of injectId, agreeing with it wherever it succeeds; used to
state the round trip relation of claim C6. -/
def injectIdTotal (entity payload : Json) : Json :=
  match payload with
  | .obj kvs => .obj (setKeyKvs kvs entity)
  | _ => payload

/-- The row loop of extract (source lines 96 to 99). -/
def extractRecs : List KRow → Except Err (List Json)
  | [] => .ok []
  | r :: rows =>
    match injectId r.2.1 r.2.2 with
    | .error e => .error e
    | .ok rec =>
    match extractRecs rows with
    | .error e => .error e
    | .ok recs => .ok (rec :: recs)

/-- The extract operation for a resolved source (source lines 92 to 103):
select the knowledge rows of the source in table order, inject the entity
id into each payload, and emit the snapshot document; the store is only
read. -/
def extractSnapshot (ks : Json) (s : Store) : Except Err Json :=
  match extractRecs (s.knowledge.filter (fun r => r.1 == ks)) with
  | .error e => .error e
  | .ok recs => .ok (.obj [("source", ks), ("knowledge", .arr recs)])

/-- Modelled from the spec: the remote knowledge source consumed by load
through the external KnowledgeStore package, with its reachability, its
negotiated source id, its ordered path list and its per path record
fetch. -/
structure Remote where
  available : Bool
  source : Json
  paths : List String
  fetch : String → Except Err Json

/-- Modelled from the spec: resolution of the effective source id
(store.source, source line 50) fails with RemoteUnavailableError when the
remote cannot be reached or authenticated, before any store mutation. -/
def resolveSource (r : Remote) : Except Err Json :=
  if r.available then .ok r.source else .error .remoteUnavailable

/-- Modelled from the spec: store.entity_knowledge (source line 64) fetches
the record of one path and stores it insert or replace, keyed
(source, entity); only the knowledge table is modelled for the load
loop. -/
def upsertK (ks entity payload : Json) (t : Store) : Store :=
  { t with
    knowledge :=
      t.knowledge.filter (fun r => !(r.1 == ks && r.2.1 == entity)) ++ [(ks, entity, payload)] }

/-- The path loop of load (source lines 63 to 66). -/
def loadFetchLoop (fetch : String → Except Err Json) (ks : Json) (t : Store) :
    List String → Except Err Store
  | [] => .ok t
  | p :: rest =>
    match fetch p with
    | .error e => .error e
    | .ok payload => loadFetchLoop fetch ks (upsertK ks (.str p) payload t) rest

/-- The load operation (source lines 34 to 70): resolve the source id, then
delete its rows, then fetch and store each path. -/
def loadRun (r : Remote) (s : Store) : Except Err Store :=
  match resolveSource r with
  | .error e => .error e
  | .ok ks => loadFetchLoop r.fetch ks (sourceDeletes ks s) r.paths

/-- The committed store after a load attempt. The deletes of source lines
53 and 54 are committed at once by line 55, before the path loop starts, so
a failure inside the loop keeps them; an unavailable remote fails at
resolution, before any deletion. -/
def loadCommitted (r : Remote) (s : Store) : Store :=
  match resolveSource r with
  | .error _ => s
  | .ok ks =>
    match loadFetchLoop r.fetch ks (sourceDeletes ks s) r.paths with
    | .ok u => u
    | .error _ => sourceDeletes ks s

/-- Modelled from the spec: the info command lists the known source ids
through the external store.knowledge_sources, most recent first; it only
reads the store. -/
def infoRun (s : Store) : List Json × Store :=
  (((s.knowledge.map (fun r => r.1)).reverse).dedup, s)

/-- The extract command as a state transformer: it reads the store and
returns it unchanged. -/
def extractRun (ks : Json) (s : Store) : Except Err Json × Store :=
  (extractSnapshot ks s, s)

/-- The invariant of claim C9: (source, entity) is a key of the knowledge
table. -/
abbrev UniqK (rows : List KRow) : Prop :=
  (rows.map (fun r => (r.1, r.2.1))).Nodup

/-- Node ["T", []] of the dedup counterexample. -/
def nodeT : Json :=
  .arr [.str "T", .arr []]

/-- Node ["U", []] of the dedup counterexample. -/
def nodeU : Json :=
  .arr [.str "U", .arr []]

/-- Snapshot whose two records, of distinct entities, both reference the
node ["T", []]. -/
def snapC1 : Json :=
  .obj [("source", .str "s1"),
        ("knowledge", .arr
          [.obj [("id", .str "a"), ("connectivity", .arr [.arr [nodeT, nodeU]])],
           .obj [("id", .str "b"), ("connectivity", .arr [.arr [nodeT]])]])]

/-- A store holding one knowledge row of source s2. -/
def storeC2 : Store :=
  { knowledge := [(.str "s2", .str "e2", .obj [])],
    labels := [], publications := [], connectivity_nodes := [] }

/-- A reachable remote for source s2 whose only path fetch fails. -/
def remoteC2 : Remote :=
  { available := true, source := .str "s2", paths := ["p2"],
    fetch := fun _ => .error .fetchError }

/-- A store holding one stale publication row for (s3, e3). -/
def storeC3 : Store :=
  { knowledge := [], labels := [],
    publications := [(.str "s3", .str "e3", .str "OLD")],
    connectivity_nodes := [] }

/-- Snapshot whose record for e3 carries an empty references list. -/
def snapC3 : Json :=
  .obj [("source", .str "s3"),
        ("knowledge", .arr [.obj [("id", .str "e3"), ("references", .arr [])]])]

/-- The concrete snapshot of claim C4. -/
def snapC4 : Json :=
  .obj [("source", .str "npo-2023"),
        ("knowledge", .arr
          [.obj [("id", .str "path:1"),
                 ("label", .str "Vagal pathway"),
                 ("references", .arr [.str "PMID:123"]),
                 ("connectivity", .arr
                   [.arr [.arr [.str "UBERON:1", .arr []],
                          .arr [.str "UBERON:2", .arr []]]])]])]

/-- A record whose connectivity field is the non iterable number 5. -/
def recC5 : Json :=
  .obj [("id", .str "x"), ("connectivity", .num 5)]

/-- A well formed record preceding the malformed one in snapC5. -/
def preC5 : Json :=
  .obj [("id", .str "a")]

/-- Snapshot with a malformed record in second position. -/
def snapC5 : Json :=
  .obj [("source", .str "s5"), ("knowledge", .arr [preC5, recC5])]

/-- A store holding one knowledge row of source s5 and one of another
source. -/
def storeC5 : Store :=
  { knowledge := [(.str "s5", .str "a", .obj [("k", .num 1)]),
                  (.str "z", .str "w", .obj [])],
    labels := [(.str "a", .str "old label")],
    publications := [(.str "s5", .str "a", .str "PMID:9")],
    connectivity_nodes := [(.str "s5", nodeT, .str "a")] }

/-- A reachable remote for source s6 delivering one record, without an id
field, for its single path. -/
def remoteC6 : Remote :=
  { available := true, source := .str "s6", paths := ["p6"],
    fetch := fun _ => .ok (.obj []) }

/-- An unreachable remote. -/
def remoteC7 : Remote :=
  { available := false, source := .str "s7", paths := ["p7"],
    fetch := fun _ => .ok (.obj []) }

/-- The snapshot extract produces from the store loaded through remoteC6. -/
def snapC6 : Json :=
  .obj [("source", .str "s6"), ("knowledge", .arr [.obj [("id", .str "p6")]])]

/-- The store the restore of snapC6 into an empty store produces: the
payload now carries the injected id field, unlike the loaded original. -/
def storeC6 : Store :=
  { knowledge := [(.str "s6", .str "p6", .obj [("id", .str "p6")])],
    labels := [], publications := [], connectivity_nodes := [] }

/-- The knowledge row the restore of snapC1 inserts for entity a. -/
def rowC10 : KRow :=
  (.str "s1", .str "a", .obj [("id", .str "a"), ("connectivity", .arr [.arr [nodeT, nodeU]])])

/-! Helper lemmas about the store, the Python primitives, and the pure
record plans; the claim theorems follow them. -/

theorem Store.eq_iff {a b : Store} :
    a = b ↔ a.knowledge = b.knowledge ∧ a.labels = b.labels ∧
      a.publications = b.publications ∧ a.connectivity_nodes = b.connectivity_nodes := by
  cases a
  cases b
  simp

theorem kvLookup_some_of_has {kvs : List (String × Json)} {k : String}
    (h : kvHas kvs k = true) : ∃ w, kvLookup kvs k = some w := by
  induction kvs with
  | nil => simp [kvHas] at h
  | cons p rest ih =>
      obtain ⟨k1, v1⟩ := p
      by_cases hk : k = k1
      · exact ⟨v1, by simp [kvLookup, hk]⟩
      · have h2 : kvHas rest k = true := by
          rw [kvHas, Bool.or_eq_true] at h
          rcases h with h | h
          · exact absurd (by simpa using h) hk
          · exact h
        obtain ⟨w, hw⟩ := ih h2
        exact ⟨w, by simp [kvLookup, hk, hw]⟩

theorem kvHas_of_lookup_some {kvs : List (String × Json)} {k : String} {w : Json}
    (h : kvLookup kvs k = some w) : kvHas kvs k = true := by
  induction kvs with
  | nil => simp [kvLookup] at h
  | cons p rest ih =>
      obtain ⟨k1, v1⟩ := p
      by_cases hk : k = k1
      · simp [kvHas, hk]
      · rw [kvLookup] at h
        simp only [beq_iff_eq, hk, if_false] at h
        simp [kvHas, ih h]

theorem pyGetItem_ok_facts {v : Json} {k : String} {w : Json}
    (h : pyGetItem v k = .ok w) : hasKey v k = true ∧ jget v k = w := by
  cases v with
  | obj kvs =>
      cases hl : kvLookup kvs k with
      | none => simp [pyGetItem, hl] at h
      | some w1 =>
          have hw : w1 = w := by simpa [pyGetItem, hl] using h
          subst hw
          exact ⟨by simp [hasKey, kvHas_of_lookup_some hl], by simp [jget, hl]⟩
  | null => simp [pyGetItem] at h
  | bool b => simp [pyGetItem] at h
  | num n => simp [pyGetItem] at h
  | str s => simp [pyGetItem] at h
  | arr xs => simp [pyGetItem] at h

theorem hasKey_getItem {v : Json} {k : String} (h : hasKey v k = true) :
    pyGetItem v k = .ok (jget v k) := by
  cases v with
  | obj kvs =>
      obtain ⟨w, hw⟩ := kvLookup_some_of_has (by simpa [hasKey] using h)
      simp [pyGetItem, jget, hw]
  | null => simp [hasKey] at h
  | bool b => simp [hasKey] at h
  | num n => simp [hasKey] at h
  | str s => simp [hasKey] at h
  | arr xs => simp [hasKey] at h

theorem filter_idem {α : Type} (p : α → Bool) (l : List α) :
    (l.filter p).filter p = l.filter p := by
  induction l with
  | nil => rfl
  | cons a l ih =>
      by_cases h : p a <;> simp [h, ih]

theorem kHas_append (ks e : Json) (K1 K2 : List KRow) :
    kHas ks e (K1 ++ K2) = (kHas ks e K1 || kHas ks e K2) := by
  simp [kHas, List.any_append]

theorem applyLops_nil (L : List LRow) : applyLops [] L = L :=
  rfl

theorem applyLops_cons (op : LRow) (ops : List LRow) (L : List LRow) :
    applyLops (op :: ops) L = applyLops ops (applyLop (some op) L) :=
  rfl

theorem applyLops_split (ops : List LRow) (L : List LRow) :
    applyLops ops L =
      L.filter (fun p => !(ops.any (fun o => p.1 == o.1))) ++ applyLops ops [] := by
  induction ops generalizing L with
  | nil => simp [applyLops]
  | cons op ops ih =>
      obtain ⟨e, v⟩ := op
      rw [applyLops_cons, applyLops_cons, ih (applyLop (some (e, v)) L),
        ih (applyLop (some (e, v)) [])]
      simp only [applyLop, List.filter_append, List.filter_filter, List.filter_nil,
        List.nil_append, List.append_assoc, List.any_cons, Bool.not_or]
      congr 1
      apply List.filter_congr
      intro p _
      exact Bool.and_comm _ _

theorem mem_applyLops {ops : List LRow} {L : List LRow} {x : LRow}
    (h : x ∈ applyLops ops L) : x ∈ L ∨ ops.any (fun o => x.1 == o.1) = true := by
  induction ops generalizing L with
  | nil => exact Or.inl h
  | cons op ops ih =>
      obtain ⟨e, v⟩ := op
      rw [applyLops_cons] at h
      rcases ih h with h2 | h2
      · simp only [applyLop, List.mem_append] at h2
        rcases h2 with h2 | h2
        · exact Or.inl (List.mem_of_mem_filter h2)
        · simp only [List.mem_singleton] at h2
          subst h2
          exact Or.inr (by simp [List.any_cons])
      · exact Or.inr (by simp [List.any_cons, h2])

theorem applyLops_idem (ops : List LRow) (L : List LRow) :
    applyLops ops (applyLops ops L) = applyLops ops L := by
  rw [applyLops_split ops (applyLops ops L), applyLops_split ops L]
  rw [List.filter_append, filter_idem]
  have hcanon : (applyLops ops []).filter (fun p => !(ops.any (fun o => p.1 == o.1))) = [] := by
    rw [List.filter_eq_nil_iff]
    intro x hx
    rcases mem_applyLops hx with h | h
    · simp at h
    · simp [h]
  rw [hcanon, List.append_nil]

theorem recPlan_spec {ks rec : Json} {pl : RecPlan}
    (h : recPlan ks rec = .ok pl) :
    ∃ e, pl.krow = (ks, e, rec) ∧ pyGetItem rec "id" = .ok e ∧
      refsPlan rec = .ok () ∧ connPlan ks e rec = .ok pl.crows := by
  unfold recPlan at h
  cases hid : pyGetItem rec "id" with
  | error e => simp [hid] at h
  | ok entity =>
      simp only [hid] at h
      cases hb : checkBind entity with
      | error e => simp [hb] at h
      | ok u0 =>
          simp only [hb] at h
          cases hl : labelPlan entity rec with
          | error e => simp [hl] at h
          | ok lop =>
              simp only [hl] at h
              cases hr : refsPlan rec with
              | error e => simp [hr] at h
              | ok u1 =>
                  simp only [hr] at h
                  cases hc : connPlan ks entity rec with
                  | error e => simp [hc] at h
                  | ok crows =>
                      simp only [hc, Except.ok.injEq] at h
                      subst h
                      exact ⟨entity, rfl, rfl, rfl, hc⟩

theorem restoreRecord_ok_iff {ks : Json} {t : Store} {rec : Json} {u : Store} :
    restoreRecord ks t rec = .ok u ↔
      ∃ pl, recPlan ks rec = .ok pl ∧ kHas ks pl.krow.2.1 t.knowledge = false ∧
        u = applyPlan pl t := by
  unfold restoreRecord recPlan
  cases hid : pyGetItem rec "id" with
  | error e => simp [hid]
  | ok entity =>
  simp only [hid]
  cases hb : checkBind entity with
  | error e => simp [hb]
  | ok u0 =>
  simp only [hb]
  by_cases hk : kHas ks entity t.knowledge = true
  · cases hl : labelPlan entity rec with
    | error e => simp [hl, hk]
    | ok lop =>
        cases hr : refsPlan rec with
        | error e => simp [hl, hr, hk]
        | ok u1 =>
            cases hc : connPlan ks entity rec with
            | error e => simp [hl, hr, hc, hk]
            | ok crows => simp [hl, hr, hc, hk]
  · simp only [hk, if_false, Bool.not_eq_true]
    simp only [labelStep]
    cases hl : labelPlan entity rec with
    | error e => simp [hl, hk]
    | ok lop =>
    simp only [hl]
    simp only [refsStep]
    by_cases hr : hasKey rec "references" = true
    · simp [refsPlan, hr, prepareManyPubs, publicationsInsertColumns,
        publicationsInsertPlaceholders, hk]
    · simp only [refsPlan, hr, if_false, Bool.not_eq_true]
      simp only [connStep]
      cases hc : connPlan ks entity rec with
      | error e => simp [hc, hk]
      | ok crows =>
          simp [hc, hk, applyPlan]
          exact eq_comm

theorem applyLops_filterMap_cons (pl : RecPlan) (pls : List RecPlan) (L : List LRow) :
    applyLops ((pl :: pls).filterMap (fun p => p.lop)) L =
      applyLops (pls.filterMap (fun p => p.lop)) (applyLop pl.lop L) := by
  cases hop : pl.lop with
  | none => simp [List.filterMap_cons, hop, applyLop]
  | some op => simp [List.filterMap_cons, hop, applyLops_cons]

theorem restoreRecords_ok {ks : Json} {recs : List Json} {t u : Store}
    (h : restoreRecords ks t recs = .ok u) :
    ∃ pls : List RecPlan,
      recPlans ks recs = .ok pls ∧
      u.knowledge = t.knowledge ++ pls.map (fun pl => pl.krow) ∧
      u.labels = applyLops (pls.filterMap (fun pl => pl.lop)) t.labels ∧
      u.publications = t.publications ∧
      u.connectivity_nodes = t.connectivity_nodes ++ pls.flatMap (fun pl => pl.crows) ∧
      (∀ pl ∈ pls, pl.krow.1 = ks ∧ kHas ks pl.krow.2.1 t.knowledge = false) ∧
      (pls.map (fun pl => pl.krow.2.1)).Nodup ∧
      (∀ t' : Store, t'.knowledge = t.knowledge →
        restoreRecords ks t' recs = .ok
          { knowledge := t'.knowledge ++ pls.map (fun pl => pl.krow),
            labels := applyLops (pls.filterMap (fun pl => pl.lop)) t'.labels,
            publications := t'.publications,
            connectivity_nodes := t'.connectivity_nodes ++ pls.flatMap (fun pl => pl.crows) }) := by
  induction recs generalizing t u with
  | nil =>
      have ht : t = u := by simpa [restoreRecords] using h
      subst ht
      refine ⟨[], rfl, by simp, by simp [applyLops], rfl, by simp, by simp, by simp, ?_⟩
      intro t' ht'
      simp [restoreRecords, applyLops]
  | cons rec recs ih =>
      rw [restoreRecords] at h
      cases hr1 : restoreRecord ks t rec with
      | error e => rw [hr1] at h; exact absurd h (by simp)
      | ok t1 =>
          rw [hr1] at h
          obtain ⟨pl, hpl, hk1, ht1⟩ := restoreRecord_ok_iff.mp hr1
          obtain ⟨pls, hpls, hK, hL, hP, hC, hmem, hnd, hpar⟩ := ih h
          have ht1K : t1.knowledge = t.knowledge ++ [pl.krow] := by
            rw [ht1]; rfl
          have ht1L : t1.labels = applyLop pl.lop t.labels := by
            rw [ht1]; rfl
          have ht1P : t1.publications = t.publications := by
            rw [ht1]; rfl
          have ht1C : t1.connectivity_nodes = t.connectivity_nodes ++ pl.crows := by
            rw [ht1]; rfl
          have hksrc : pl.krow.1 = ks := by
            obtain ⟨e0, hkrow, _, _, _⟩ := recPlan_spec hpl
            rw [hkrow]
          refine ⟨pl :: pls, ?_, ?_, ?_, ?_, ?_, ?_, ?_, ?_⟩
          · simp [recPlans, hpl, hpls]
          · rw [hK, ht1K]
            simp [List.append_assoc]
          · rw [hL, ht1L, applyLops_filterMap_cons]
          · rw [hP, ht1P]
          · rw [hC, ht1C]
            simp [List.append_assoc]
          · intro pl2 hpl2
            rcases List.mem_cons.mp hpl2 with h2 | h2
            · subst h2
              exact ⟨hksrc, hk1⟩
            · obtain ⟨hsrc2, hk2⟩ := hmem pl2 h2
              refine ⟨hsrc2, ?_⟩
              rw [ht1K, kHas_append, Bool.or_eq_false_iff] at hk2
              exact hk2.1
          · rw [List.map_cons, List.nodup_cons]
            refine ⟨?_, hnd⟩
            intro hin
            obtain ⟨pl2, hpl2, he2⟩ := List.mem_map.mp hin
            obtain ⟨_, hk2⟩ := hmem pl2 hpl2
            rw [ht1K, kHas_append, Bool.or_eq_false_iff] at hk2
            have : kHas ks pl2.krow.2.1 [pl.krow] = false := hk2.2
            rw [kHas] at this
            simp [hksrc, he2] at this
          · intro t' ht'
            have hr1' : restoreRecord ks t' rec = .ok (applyPlan pl t') := by
              exact restoreRecord_ok_iff.mpr ⟨pl, hpl, by rw [ht']; exact hk1, rfl⟩
            rw [restoreRecords]
            simp only [hr1']
            have hKeq : (applyPlan pl t').knowledge = t1.knowledge := by
              rw [ht1K]
              show t'.knowledge ++ [pl.krow] = t.knowledge ++ [pl.krow]
              rw [ht']
            have := hpar (applyPlan pl t') hKeq
            rw [this]
            congr 1
            rw [Store.eq_iff]
            refine ⟨?_, ?_, ?_, ?_⟩
            · show (t'.knowledge ++ [pl.krow]) ++ pls.map (fun pl => pl.krow) =
                t'.knowledge ++ (pl :: pls).map (fun pl => pl.krow)
              simp [List.append_assoc]
            · show applyLops (pls.filterMap (fun p => p.lop)) (applyLop pl.lop t'.labels) =
                applyLops ((pl :: pls).filterMap (fun p => p.lop)) t'.labels
              rw [applyLops_filterMap_cons]
            · rfl
            · show (t'.connectivity_nodes ++ pl.crows) ++ pls.flatMap (fun pl => pl.crows) =
                t'.connectivity_nodes ++ (pl :: pls).flatMap (fun pl => pl.crows)
              simp [List.append_assoc]

theorem encodeNode_inj {a b : Json} {qa qb : List Json}
    (h : encodeNode a qa = encodeNode b qb) : a = b ∧ qa = qb := by
  simp [encodeNode] at h
  exact h

theorem connNodes_inv {ks entity : Json} :
    ∀ (nodes : List Json) (seen : List (Json × List Json)) (rows : List CRow)
      {st : List (Json × List Json) × List CRow},
      connNodes ks entity seen rows nodes = .ok st →
      (∀ r ∈ rows, r.1 = ks ∧ r.2.2 = entity) →
      (rows.map (fun r => r.2.1)).Nodup →
      (∀ r ∈ rows, ∃ nq ∈ seen, r.2.1 = encodeNode nq.1 nq.2) →
      ((∀ r ∈ st.2, r.1 = ks ∧ r.2.2 = entity) ∧
       (st.2.map (fun r => r.2.1)).Nodup ∧
       (∀ r ∈ st.2, ∃ nq ∈ st.1, r.2.1 = encodeNode nq.1 nq.2) ∧
       (∀ p ∈ seen, p ∈ st.1)) := by
  intro nodes
  induction nodes with
  | nil =>
      intro seen rows st h h1 h2 h3
      have hst : (seen, rows) = st := by simpa [connNodes] using h
      subst hst
      exact ⟨h1, h2, h3, fun p hp => hp⟩
  | cons node rest ih =>
      intro seen rows st h h1 h2 h3
      rw [connNodes] at h
      cases hn0 : pyIndex node 0 with
      | error e => simp [hn0] at h
      | ok n0 =>
      simp only [hn0] at h
      cases hn1 : pyIndex node 1 with
      | error e => simp [hn1] at h
      | ok n1 =>
      simp only [hn1] at h
      cases hq : pyTuple n1 with
      | error e => simp [hq] at h
      | ok quals =>
      simp only [hq] at h
      by_cases hh : (hashable n0 && quals.all hashable) = true
      · simp only [hh, if_true] at h
        by_cases hmem : (n0, quals) ∈ seen
        · simp only [hmem, if_true] at h
          exact ih seen rows h h1 h2 h3
        · simp only [hmem, if_false] at h
          have h1' : ∀ r ∈ rows ++ [(ks, encodeNode n0 quals, entity)],
              r.1 = ks ∧ r.2.2 = entity := by
            intro r hr
            rcases List.mem_append.mp hr with hr | hr
            · exact h1 r hr
            · simp only [List.mem_singleton] at hr
              subst hr
              exact ⟨rfl, rfl⟩
          have h2' : ((rows ++ [(ks, encodeNode n0 quals, entity)]).map
              (fun r => r.2.1)).Nodup := by
            rw [List.map_append, List.map_singleton]
            apply List.Nodup.append h2 (by simp)
            intro x hx hx2
            simp only [List.mem_singleton] at hx2
            subst hx2
            obtain ⟨r, hr, hre⟩ := List.mem_map.mp hx
            obtain ⟨nq, hnq, hnqe⟩ := h3 r hr
            rw [hre] at hnqe
            obtain ⟨ha, hb⟩ := encodeNode_inj hnqe.symm
            have hnqeq : nq = (n0, quals) := by
              obtain ⟨na, nb⟩ := nq
              simp only at ha hb
              rw [ha, hb]
            exact hmem (hnqeq ▸ hnq)
          have h3' : ∀ r ∈ rows ++ [(ks, encodeNode n0 quals, entity)],
              ∃ nq ∈ (n0, quals) :: seen, r.2.1 = encodeNode nq.1 nq.2 := by
            intro r hr
            rcases List.mem_append.mp hr with hr | hr
            · obtain ⟨nq, hnq, hnqe⟩ := h3 r hr
              exact ⟨nq, List.mem_cons_of_mem _ hnq, hnqe⟩
            · simp only [List.mem_singleton] at hr
              subst hr
              exact ⟨(n0, quals), List.mem_cons_self _ _, rfl⟩
          obtain ⟨g1, g2, g3, g4⟩ := ih _ _ h h1' h2' h3'
          exact ⟨g1, g2, g3, fun p hp => g4 p (List.mem_cons_of_mem _ hp)⟩
      · simp [hh] at h

theorem connEdges_inv {ks entity : Json} :
    ∀ (edges : List Json) (seen : List (Json × List Json)) (rows : List CRow)
      {st : List (Json × List Json) × List CRow},
      connEdges ks entity seen rows edges = .ok st →
      (∀ r ∈ rows, r.1 = ks ∧ r.2.2 = entity) →
      (rows.map (fun r => r.2.1)).Nodup →
      (∀ r ∈ rows, ∃ nq ∈ seen, r.2.1 = encodeNode nq.1 nq.2) →
      ((∀ r ∈ st.2, r.1 = ks ∧ r.2.2 = entity) ∧
       (st.2.map (fun r => r.2.1)).Nodup ∧
       (∀ r ∈ st.2, ∃ nq ∈ st.1, r.2.1 = encodeNode nq.1 nq.2)) := by
  intro edges
  induction edges with
  | nil =>
      intro seen rows st h h1 h2 h3
      have hst : (seen, rows) = st := by simpa [connEdges] using h
      subst hst
      exact ⟨h1, h2, h3⟩
  | cons edge rest ih =>
      intro seen rows st h h1 h2 h3
      rw [connEdges] at h
      cases hi : pyIter edge with
      | error e => simp [hi] at h
      | ok nodes =>
      simp only [hi] at h
      cases hn : connNodes ks entity seen rows nodes with
      | error e => simp [hn] at h
      | ok st1 =>
      simp only [hn] at h
      obtain ⟨g1, g2, g3, _⟩ := connNodes_inv nodes seen rows hn h1 h2 h3
      exact ih st1.1 st1.2 h g1 g2 g3

theorem connRows_facts {ks entity conn : Json} {rows : List CRow}
    (h : connRows ks entity conn = .ok rows) :
    (∀ r ∈ rows, r.1 = ks ∧ r.2.2 = entity) ∧ (rows.map (fun r => r.2.1)).Nodup := by
  unfold connRows at h
  cases hi : pyIter conn with
  | error e => simp [hi] at h
  | ok edges =>
      simp only [hi] at h
      cases he : connEdges ks entity [] [] edges with
      | error e => simp [he] at h
      | ok st =>
          simp only [he, Except.ok.injEq] at h
          subst h
          obtain ⟨g1, g2, _⟩ := connEdges_inv edges [] [] he (by simp) (by simp) (by simp)
          exact ⟨g1, g2⟩

theorem connPlan_facts {ks entity rec : Json} {rows : List CRow}
    (h : connPlan ks entity rec = .ok rows) :
    (∀ r ∈ rows, r.1 = ks ∧ r.2.2 = entity) ∧ (rows.map (fun r => r.2.1)).Nodup := by
  unfold connPlan at h
  by_cases hc : hasKey rec "connectivity" = true
  · rw [if_pos hc] at h
    exact connRows_facts h
  · rw [if_neg hc] at h
    simp only [Except.ok.injEq] at h
    subst h
    exact ⟨by simp, by simp⟩

theorem recPlan_crows_facts {ks rec : Json} {pl : RecPlan}
    (h : recPlan ks rec = .ok pl) :
    (∀ c ∈ pl.crows, c.1 = ks ∧ c.2.2 = pl.krow.2.1) ∧
      (pl.crows.map (fun r => r.2.1)).Nodup := by
  obtain ⟨e0, hkrow, _, _, hconn⟩ := recPlan_spec h
  have := connPlan_facts hconn
  rw [hkrow]
  exact this

theorem recPlans_mem {ks : Json} {recs : List Json} {pls : List RecPlan}
    (h : recPlans ks recs = .ok pls) :
    ∀ pl ∈ pls, ∃ rec ∈ recs, recPlan ks rec = .ok pl := by
  induction recs generalizing pls with
  | nil =>
      have : pls = [] := by simpa [recPlans] using h.symm
      subst this
      intro pl hpl
      simp at hpl
  | cons rec recs ih =>
      rw [recPlans] at h
      cases h1 : recPlan ks rec with
      | error e => simp [h1] at h
      | ok pl1 =>
      simp only [h1] at h
      cases h2 : recPlans ks recs with
      | error e => simp [h2] at h
      | ok pls1 =>
      simp only [h2, Except.ok.injEq] at h
      subst h
      intro pl hpl
      rcases List.mem_cons.mp hpl with hpl | hpl
      · exact ⟨rec, List.mem_cons_self _ _, by rw [hpl]; exact h1⟩
      · obtain ⟨rec2, hrec2, hp⟩ := ih h2 pl hpl
        exact ⟨rec2, List.mem_cons_of_mem _ hrec2, hp⟩

theorem restoreRun_ok_elim {snap : Json} {s u : Store} (h : restoreRun snap s = .ok u) :
    ∃ ks kv recs, pyGetItem snap "source" = .ok ks ∧ checkBind ks = .ok () ∧
      pyGetItem snap "knowledge" = .ok kv ∧ pyIter kv = .ok recs ∧
      restoreRecords ks (sourceDeletes ks s) recs = .ok u := by
  unfold restoreRun at h
  cases hks : pyGetItem snap "source" with
  | error e => simp [hks] at h
  | ok ks =>
      simp only [hks] at h
      cases hb : checkBind ks with
      | error e => simp [hb] at h
      | ok u0 =>
          simp only [hb] at h
          cases hkv : pyGetItem snap "knowledge" with
          | error e => simp [hkv] at h
          | ok kv =>
              simp only [hkv] at h
              cases hit : pyIter kv with
              | error e => simp [hit] at h
              | ok recs =>
                  simp only [hit] at h
                  exact ⟨ks, kv, recs, rfl, by cases u0; exact hb, rfl, hit, h⟩

theorem recPlans_flat_crows_src {ks : Json} {recs : List Json} {pls : List RecPlan}
    (h : recPlans ks recs = .ok pls) :
    ∀ c ∈ pls.flatMap (fun pl => pl.crows), c.1 = ks := by
  intro c hc
  obtain ⟨pl, hpl, hcin⟩ := List.mem_flatMap.mp hc
  obtain ⟨rec, _, hrp⟩ := recPlans_mem h pl hpl
  exact ((recPlan_crows_facts hrp).1 c hcin).1

/-- C8: restore twice with an identical snapshot leaves the identical
committed store as restoring once, for every starting store. The second run
deletes exactly the rows the first run inserted for the source, replays the
same inserts, and the label replacements are idempotent as a sequence. -/
theorem c8_restore_idempotent (snap : Json) (s : Store) :
    restoreResult snap (restoreResult snap s) = restoreResult snap s := by
  cases h : restoreRun snap s with
  | error e =>
      have hs : restoreResult snap s = s := by simp [restoreResult, h]
      rw [hs, restoreResult, h]
  | ok s1 =>
      have hs : restoreResult snap s = s1 := by simp [restoreResult, h]
      rw [hs]
      obtain ⟨ks, kv, recs, hks, hb, hkv, hit, hrr⟩ := restoreRun_ok_elim h
      obtain ⟨pls, hpls, hK, hL, hP, hC, hmem, hnd, hpar⟩ := restoreRecords_ok hrr
      have hKdel : (sourceDeletes ks s1).knowledge = (sourceDeletes ks s).knowledge := by
        show s1.knowledge.filter (fun r => !(r.1 == ks)) = _
        rw [hK, List.filter_append]
        have h1 : ((sourceDeletes ks s).knowledge).filter (fun r => !(r.1 == ks)) =
            (sourceDeletes ks s).knowledge := filter_idem _ _
        have h2 : ((pls.map (fun pl => pl.krow)).filter (fun r => !(r.1 == ks))) = [] := by
          rw [List.filter_eq_nil_iff]
          intro r hr
          obtain ⟨pl2, hpl2, hre⟩ := List.mem_map.mp hr
          have := (hmem pl2 hpl2).1
          rw [← hre]
          simp [this]
        rw [h1, h2, List.append_nil]
      have hCdel : (sourceDeletes ks s1).connectivity_nodes =
          (sourceDeletes ks s).connectivity_nodes := by
        show s1.connectivity_nodes.filter (fun r => !(r.1 == ks)) = _
        rw [hC, List.filter_append]
        have h1 : ((sourceDeletes ks s).connectivity_nodes).filter (fun r => !(r.1 == ks)) =
            (sourceDeletes ks s).connectivity_nodes := filter_idem _ _
        have h2 : ((pls.flatMap (fun pl => pl.crows)).filter (fun r => !(r.1 == ks))) = [] := by
          rw [List.filter_eq_nil_iff]
          intro r hr
          have := recPlans_flat_crows_src hpls r hr
          simp [this]
        rw [h1, h2, List.append_nil]
      have hrun2 : restoreRecords ks (sourceDeletes ks s1) recs = .ok
          { knowledge := (sourceDeletes ks s1).knowledge ++ pls.map (fun pl => pl.krow),
            labels := applyLops (pls.filterMap (fun pl => pl.lop)) (sourceDeletes ks s1).labels,
            publications := (sourceDeletes ks s1).publications,
            connectivity_nodes :=
              (sourceDeletes ks s1).connectivity_nodes ++ pls.flatMap (fun pl => pl.crows) } :=
        hpar (sourceDeletes ks s1) hKdel
      have hrun2s : restoreRun snap s1 = .ok s1 := by
        unfold restoreRun
        simp only [hks, hb, hkv, hit, clean_connectivity]
        rw [hrun2]
        congr 1
        rw [Store.eq_iff]
        refine ⟨?_, ?_, ?_, ?_⟩
        · show (sourceDeletes ks s1).knowledge ++ pls.map (fun pl => pl.krow) = s1.knowledge
          rw [hKdel, hK]
        · show applyLops (pls.filterMap (fun pl => pl.lop)) s1.labels = s1.labels
          rw [hL, applyLops_idem]
        · show (sourceDeletes ks s1).publications = s1.publications
          rfl
        · show (sourceDeletes ks s1).connectivity_nodes ++
              pls.flatMap (fun pl => pl.crows) = s1.connectivity_nodes
          rw [hCdel, hC]
      simp [restoreResult, hrun2s]

/-- C10: every knowledge row a successful restore holds for the snapshot
source stores the whole snapshot record as payload, id field included: the
id injected during extraction is not stripped, and reading the id key of
the stored payload returns the entity column of the row. -/
theorem c10_restored_payload_keeps_id (snap : Json) (s s' : Store) (ks : Json) (row : KRow)
    (h : restoreRun snap s = .ok s') (hks : pyGetItem snap "source" = .ok ks)
    (hmem : row ∈ s'.knowledge) (hsrc : row.1 = ks) :
    pyGetItem row.2.2 "id" = .ok row.2.1 := by
  obtain ⟨ks2, kv, recs, hks2, hb, hkv, hit, hrr⟩ := restoreRun_ok_elim h
  have hkse : ks = ks2 := Except.ok.inj (hks.symm.trans hks2)
  subst hkse
  obtain ⟨pls, hpls, hK, _, _, _, _, _, _⟩ := restoreRecords_ok hrr
  rw [hK] at hmem
  rcases List.mem_append.mp hmem with hin | hin
  · have hpred := List.of_mem_filter
      (show row ∈ s.knowledge.filter (fun r => !(r.1 == ks)) from hin)
    simp [hsrc] at hpred
  · obtain ⟨pl, hpl, hre⟩ := List.mem_map.mp hin
    obtain ⟨rec, hrec, hrp⟩ := recPlans_mem hpls pl hpl
    obtain ⟨e0, hkrow, hid0, _, _⟩ := recPlan_spec hrp
    rw [← hre, hkrow]
    exact hid0

theorem sublist_filter_uniq {p : KRow → Bool} {K : List KRow} (h : UniqK K) :
    UniqK (K.filter p) := by
  exact List.Nodup.sublist (List.Sublist.map _ (List.filter_sublist K)) h

theorem upsertK_uniq {ks e payload : Json} {t : Store} (h : UniqK t.knowledge) :
    UniqK (upsertK ks e payload t).knowledge := by
  show UniqK (t.knowledge.filter (fun r => !(r.1 == ks && r.2.1 == e)) ++ [(ks, e, payload)])
  rw [UniqK, List.map_append, List.nodup_append]
  refine ⟨sublist_filter_uniq h, by simp, ?_⟩
  intro x hx hx2
  simp only [List.map_singleton, List.mem_singleton] at hx2
  subst hx2
  obtain ⟨r, hr, hre⟩ := List.mem_map.mp hx
  have hpred := List.of_mem_filter hr
  have h1 : r.1 = ks := congrArg Prod.fst hre
  have h2 : r.2.1 = e := congrArg (fun q => q.2) hre
  simp [h1, h2] at hpred

theorem loadFetchLoop_uniq {fetch : String → Except Err Json} {ks : Json} :
    ∀ (paths : List String) {t u : Store},
      loadFetchLoop fetch ks t paths = .ok u → UniqK t.knowledge → UniqK u.knowledge := by
  intro paths
  induction paths with
  | nil =>
      intro t u h hu
      have : t = u := by simpa [loadFetchLoop] using h
      subst this
      exact hu
  | cons p rest ih =>
      intro t u h hu
      rw [loadFetchLoop] at h
      cases hf : fetch p with
      | error e => simp [hf] at h
      | ok payload =>
          simp only [hf] at h
          exact ih h (upsertK_uniq hu)

theorem restoreResult_uniq (snap : Json) (s : Store) (h : UniqK s.knowledge) :
    UniqK (restoreResult snap s).knowledge := by
  cases hr : restoreRun snap s with
  | error e => simpa [restoreResult, hr] using h
  | ok s1 =>
      have hs : (restoreResult snap s).knowledge = s1.knowledge := by
        simp [restoreResult, hr]
      rw [hs]
      obtain ⟨ks, kv, recs, hks, hb, hkv, hit, hrr⟩ := restoreRun_ok_elim hr
      obtain ⟨pls, hpls, hK, _, _, _, hmem, hnd, _⟩ := restoreRecords_ok hrr
      rw [hK, UniqK, List.map_append, List.nodup_append]
      refine ⟨sublist_filter_uniq h, ?_, ?_⟩
      · rw [List.map_map]
        have hcg : (pls.map ((fun r : KRow => (r.1, r.2.1)) ∘ (fun pl => pl.krow))) =
            pls.map (fun pl => (ks, pl.krow.2.1)) := by
          apply List.map_congr_left
          intro pl hpl
          simp [(hmem pl hpl).1]
        rw [hcg]
        have hsplit : pls.map (fun pl => (ks, pl.krow.2.1)) =
            (pls.map (fun pl => pl.krow.2.1)).map (fun e => (ks, e)) := by
          rw [List.map_map]
          rfl
        rw [hsplit]
        have hinj : Function.Injective (fun e : Json => (ks, e)) := by
          intro a b hab
          exact ((Prod.mk.injEq _ _ _ _).mp hab).2
        exact List.Nodup.map hinj hnd
      · intro x hx hx2
        obtain ⟨r, hr2, hre⟩ := List.mem_map.mp hx
        obtain ⟨kr, hkr, hre2⟩ := List.mem_map.mp hx2
        obtain ⟨pl, hpl, hplk⟩ := List.mem_map.mp hkr
        have hpred := List.of_mem_filter hr2
        have h1 : r.1 = x.1 := congrArg Prod.fst hre
        have h2 : kr.1 = x.1 := congrArg Prod.fst hre2
        have h3 : kr.1 = ks := by
          rw [← hplk]
          exact (hmem pl hpl).1
        have h4 : r.1 = ks := by rw [h1, ← h2, h3]
        simp [h4] at hpred

theorem loadCommitted_uniq (r : Remote) (s : Store) (h : UniqK s.knowledge) :
    UniqK (loadCommitted r s).knowledge := by
  cases hres : resolveSource r with
  | error e =>
      have hcom : loadCommitted r s = s := by simp [loadCommitted, hres]
      rw [hcom]
      exact h
  | ok ks =>
      cases hl : loadFetchLoop r.fetch ks (sourceDeletes ks s) r.paths with
      | error e =>
          have hcom : loadCommitted r s = sourceDeletes ks s := by
            simp [loadCommitted, hres, hl]
          rw [hcom]
          exact sublist_filter_uniq h
      | ok u =>
          have hcom : loadCommitted r s = u := by simp [loadCommitted, hres, hl]
          rw [hcom]
          exact loadFetchLoop_uniq r.paths hl (sublist_filter_uniq h)

/-- C9: all four operations preserve the invariant that (source, entity) is
a key of the knowledge table; restore deduplicates through the modelled
unique(source, entity) constraint that makes a duplicate id in the snapshot
abort the whole restore, and the load loop upserts. Extract and info only
read the store. -/
theorem c9_source_entity_unique (s : Store) (snap : Json) (r : Remote) (ks : Json)
    (h : UniqK s.knowledge) :
    UniqK (restoreResult snap s).knowledge ∧ UniqK (loadCommitted r s).knowledge ∧
      UniqK ((infoRun s).2).knowledge ∧ UniqK ((extractRun ks s).2).knowledge :=
  ⟨restoreResult_uniq snap s h, loadCommitted_uniq r s h, h, h⟩

theorem flat_crows_filter_nodup {ks e : Json} :
    ∀ (pls : List RecPlan),
      (∀ pl ∈ pls, (∀ c ∈ pl.crows, c.1 = ks ∧ c.2.2 = pl.krow.2.1) ∧
        (pl.crows.map (fun c => c.2.1)).Nodup) →
      (pls.map (fun pl => pl.krow.2.1)).Nodup →
      (((pls.flatMap (fun pl => pl.crows)).filter
          (fun c => c.1 == ks && c.2.2 == e)).map (fun c => c.2.1)).Nodup := by
  intro pls
  induction pls with
  | nil =>
      intro hfacts hnd
      simp
  | cons pl pls ih =>
      intro hfacts hnd
      rw [List.flatMap_cons, List.filter_append, List.map_append]
      rw [List.map_cons, List.nodup_cons] at hnd
      have hfhead := hfacts pl (List.mem_cons_self _ _)
      have hftail : ∀ pl2 ∈ pls, (∀ c ∈ pl2.crows, c.1 = ks ∧ c.2.2 = pl2.krow.2.1) ∧
          (pl2.crows.map (fun c => c.2.1)).Nodup :=
        fun pl2 hpl2 => hfacts pl2 (List.mem_cons_of_mem _ hpl2)
      by_cases he : pl.krow.2.1 = e
      · have htail : (pls.flatMap (fun pl => pl.crows)).filter
            (fun c => c.1 == ks && c.2.2 == e) = [] := by
          rw [List.filter_eq_nil_iff]
          intro c hc
          obtain ⟨pl2, hpl2, hcin⟩ := List.mem_flatMap.mp hc
          have hc2 : c.2.2 = pl2.krow.2.1 := ((hftail pl2 hpl2).1 c hcin).2
          have hne : pl2.krow.2.1 ≠ e := by
            intro hceq
            exact hnd.1 (by rw [he, ← hceq]; exact List.mem_map_of_mem _ hpl2)
          simp [hc2, hne]
        rw [htail]
        simp only [List.map_nil, List.append_nil]
        exact List.Nodup.sublist
          (List.Sublist.map _ (List.filter_sublist pl.crows)) hfhead.2
      · have hhead : pl.crows.filter (fun c => c.1 == ks && c.2.2 == e) = [] := by
          rw [List.filter_eq_nil_iff]
          intro c hc
          have hc2 : c.2.2 = pl.krow.2.1 := (hfhead.1 c hc).2
          simp [hc2, he]
        rw [hhead]
        simp only [List.map_nil, List.nil_append]
        exact ih hftail hnd.2

/-- C1 amended: within a successful restore, connectivity nodes are
deduplicated per record, so for each (source, owning entity) pair the node
values among the connectivity_nodes rows are pairwise distinct; one node
appearing in records of different entities still yields one row per
entity. -/
theorem c1_nodes_distinct_per_entity (snap : Json) (s s' : Store) (ks e : Json)
    (h : restoreRun snap s = .ok s') (hks : pyGetItem snap "source" = .ok ks) :
    ((s'.connectivity_nodes.filter (fun c => c.1 == ks && c.2.2 == e)).map
      (fun c => c.2.1)).Nodup := by
  obtain ⟨ks2, kv, recs, hks2, hb, hkv, hit, hrr⟩ := restoreRun_ok_elim h
  have hkse : ks = ks2 := Except.ok.inj (hks.symm.trans hks2)
  subst hkse
  obtain ⟨pls, hpls, _, _, _, hC, _, hnd, _⟩ := restoreRecords_ok hrr
  rw [hC, List.filter_append, List.map_append]
  have h1 : (sourceDeletes ks s).connectivity_nodes.filter
      (fun c => c.1 == ks && c.2.2 == e) = [] := by
    rw [List.filter_eq_nil_iff]
    intro c hc
    have hpred := List.of_mem_filter
      (show c ∈ s.connectivity_nodes.filter (fun c => !(c.1 == ks)) from hc)
    simp at hpred
    simp [hpred]
  rw [h1]
  simp only [List.map_nil, List.nil_append]
  apply flat_crows_filter_nodup
  · intro pl hpl
    obtain ⟨rec, _, hrp⟩ := recPlans_mem hpls pl hpl
    exact recPlan_crows_facts hrp
  · exact hnd

theorem restoreRecord_conn_notlist_fails {ks rec v : Json}
    (hconn : pyGetItem rec "connectivity" = .ok v)
    (hbad : pyIter v = .error .typeError) :
    ∀ (t u : Store), restoreRecord ks t rec ≠ .ok u := by
  intro t u hok
  obtain ⟨pl, hpl, _, _⟩ := restoreRecord_ok_iff.mp hok
  obtain ⟨e0, _, _, _, hconnp⟩ := recPlan_spec hpl
  obtain ⟨hhas, hj⟩ := pyGetItem_ok_facts hconn
  rw [connPlan, if_pos hhas, hj] at hconnp
  rw [connRows] at hconnp
  simp [hbad] at hconnp

theorem restoreRecords_with_bad_fails {ks rec : Json}
    (hb : ∀ (t u : Store), restoreRecord ks t rec ≠ .ok u) :
    ∀ (pre : List Json) (post : List Json) (t u : Store),
      restoreRecords ks t (pre ++ rec :: post) ≠ .ok u := by
  intro pre
  induction pre with
  | nil =>
      intro post t u hok
      rw [List.nil_append, restoreRecords] at hok
      cases h1 : restoreRecord ks t rec with
      | error e => simp [h1] at hok
      | ok t1 => exact hb t t1 h1
  | cons p pre ih =>
      intro post t u hok
      rw [List.cons_append, restoreRecords] at hok
      cases h1 : restoreRecord ks t p with
      | error e => simp [h1] at hok
      | ok t1 =>
          simp only [h1] at hok
          exact ih post t1 u hok

/-- C5: a restore of a snapshot one of whose records carries a connectivity
value that is not iterable (for example a number) fails before the final
commit, whatever came before or after the record, and the committed store
is exactly the store from before the attempt. -/
theorem c5_malformed_restore_rolls_back (s : Store) (snap src v rec : Json)
    (pre post : List Json)
    (hsnap : snap = .obj [("source", src), ("knowledge", .arr (pre ++ rec :: post))])
    (hconn : pyGetItem rec "connectivity" = .ok v)
    (hbad : pyIter v = .error .typeError) :
    (restoreRun snap s).toOption = none ∧ restoreResult snap s = s := by
  have hfail : ∀ u, restoreRun snap s ≠ .ok u := by
    intro u hok
    obtain ⟨ks, kv, recs, hks, hbk, hkv, hit, hrr⟩ := restoreRun_ok_elim hok
    subst hsnap
    have hkv2 : pyGetItem (Json.obj [("source", src),
        ("knowledge", .arr (pre ++ rec :: post))]) "knowledge"
        = .ok (.arr (pre ++ rec :: post)) := rfl
    have hkveq : kv = .arr (pre ++ rec :: post) := Except.ok.inj (hkv.symm.trans hkv2)
    subst hkveq
    have hrecs : recs = pre ++ rec :: post := (Except.ok.inj hit).symm
    subst hrecs
    exact restoreRecords_with_bad_fails
      (restoreRecord_conn_notlist_fails hconn hbad) pre post _ u hrr
  constructor
  · cases hr : restoreRun snap s with
    | ok u => exact absurd hr (hfail u)
    | error e => rfl
  · cases hr : restoreRun snap s with
    | ok u => exact absurd hr (hfail u)
    | error e => simp [restoreResult, hr]

theorem setKeyKvs_lookup (kvs : List (String × Json)) (entity : Json) :
    kvLookup (setKeyKvs kvs entity) "id" = some entity := by
  induction kvs with
  | nil => simp [setKeyKvs, kvLookup]
  | cons p rest ih =>
      obtain ⟨k, v⟩ := p
      by_cases hk : k = "id"
      · simp [setKeyKvs, hk, kvLookup]
      · have hk2 : ("id" == k) = false := by
          simp
          exact fun c => hk c.symm
        simp only [setKeyKvs, beq_iff_eq, hk, if_false]
        rw [kvLookup, hk2]
        exact ih

theorem setKeyKvs_self {kvs : List (String × Json)} {entity : Json}
    (h : kvLookup kvs "id" = some entity) : setKeyKvs kvs entity = kvs := by
  induction kvs with
  | nil => simp [kvLookup] at h
  | cons p rest ih =>
      obtain ⟨k, v⟩ := p
      by_cases hk : k = "id"
      · subst hk
        rw [kvLookup] at h
        simp only [beq_self_eq_true, if_true, Option.some.injEq] at h
        simp [setKeyKvs, h]
      · have hk2 : ("id" == k) = false := by
          simp
          exact fun c => hk c.symm
        rw [kvLookup, hk2] at h
        simp only [setKeyKvs, beq_iff_eq, hk, if_false]
        rw [ih h]

theorem extract_restore_records {ks : Json} :
    ∀ (rows : List KRow) (recs : List Json) (t u : Store),
      extractRecs rows = .ok recs →
      restoreRecords ks t recs = .ok u →
      u.knowledge = t.knowledge ++
        rows.map (fun r => (ks, r.2.1, injectIdTotal r.2.1 r.2.2)) := by
  intro rows
  induction rows with
  | nil =>
      intro recs t u hx hr
      have h1 : recs = [] := by
        have h0 := hx
        simp [extractRecs] at h0
        exact h0
      subst h1
      have h2 : t = u := by simpa [restoreRecords] using hr
      subst h2
      simp
  | cons r rows ih =>
      intro recs t u hx hr
      rw [extractRecs] at hx
      cases hi : injectId r.2.1 r.2.2 with
      | error e => simp [hi] at hx
      | ok rec0 =>
      simp only [hi] at hx
      cases hx2 : extractRecs rows with
      | error e => simp [hx2] at hx
      | ok recs1 =>
      simp only [hx2, Except.ok.injEq] at hx
      subst hx
      rw [restoreRecords] at hr
      cases h1 : restoreRecord ks t rec0 with
      | error e => simp [h1] at hr
      | ok t1 =>
      simp only [h1] at hr
      obtain ⟨pl, hpl, hk1, ht1⟩ := restoreRecord_ok_iff.mp h1
      obtain ⟨e0, hkrow, hid0, _, _⟩ := recPlan_spec hpl
      have hrec0 : ∃ kvs, r.2.2 = Json.obj kvs ∧ rec0 = Json.obj (setKeyKvs kvs r.2.1) := by
        cases hpay : r.2.2 with
        | obj kvs =>
            rw [hpay] at hi
            simp only [injectId, Except.ok.injEq] at hi
            exact ⟨kvs, rfl, hi.symm⟩
        | null => rw [hpay] at hi; simp [injectId] at hi
        | bool b => rw [hpay] at hi; simp [injectId] at hi
        | num n => rw [hpay] at hi; simp [injectId] at hi
        | str s2 => rw [hpay] at hi; simp [injectId] at hi
        | arr xs => rw [hpay] at hi; simp [injectId] at hi
      obtain ⟨kvs, hpay, hrec0⟩ := hrec0
      have hid : pyGetItem rec0 "id" = .ok r.2.1 := by
        rw [hrec0]
        simp [pyGetItem, setKeyKvs_lookup]
      have he0 : e0 = r.2.1 := Except.ok.inj (hid0.symm.trans hid)
      have hrest := ih recs1 t1 u hx2 hr
      rw [hrest, ht1]
      show (applyPlan pl t).knowledge ++ _ = _
      have happ : (applyPlan pl t).knowledge = t.knowledge ++ [pl.krow] := rfl
      rw [happ, hkrow, he0, List.map_cons, List.append_assoc]
      have hp2 : injectIdTotal r.2.1 r.2.2 = rec0 := by
        rw [hpay, hrec0]
        rfl
      rw [hp2]
      rfl

theorem extractSnapshot_ok_elim {ks : Json} {s : Store} {snap : Json}
    (h : extractSnapshot ks s = .ok snap) :
    ∃ recs, extractRecs (s.knowledge.filter (fun r => r.1 == ks)) = .ok recs ∧
      snap = .obj [("source", ks), ("knowledge", .arr recs)] := by
  unfold extractSnapshot at h
  cases hx : extractRecs (s.knowledge.filter (fun r => r.1 == ks)) with
  | error e => simp [hx] at h
  | ok recs =>
      simp only [hx, Except.ok.injEq] at h
      exact ⟨recs, rfl, h.symm⟩

theorem extract_restore_knowledge {ks : Json} {s1 : Store} {snap : Json} {s2 : Store}
    (hx : extractSnapshot ks s1 = .ok snap)
    (hr : restoreRun snap emptyStore = .ok s2) :
    s2.knowledge = (s1.knowledge.filter (fun r => r.1 == ks)).map
      (fun r => (ks, r.2.1, injectIdTotal r.2.1 r.2.2)) := by
  obtain ⟨recs, hxr, hsnap⟩ := extractSnapshot_ok_elim hx
  subst hsnap
  obtain ⟨ks2, kv, recs2, hks, hbk, hkv, hit, hrr⟩ := restoreRun_ok_elim hr
  have hks1 : pyGetItem (Json.obj [("source", ks), ("knowledge", .arr recs)]) "source"
      = .ok ks := rfl
  have hkse : ks2 = ks := (Except.ok.inj (hks1.symm.trans hks)).symm
  subst hkse
  have hkv1 : pyGetItem (Json.obj [("source", ks2), ("knowledge", .arr recs)]) "knowledge"
      = .ok (.arr recs) := rfl
  have hkveq : kv = .arr recs := Except.ok.inj (hkv.symm.trans hkv1)
  subst hkveq
  have hrecs : recs2 = recs := (Except.ok.inj hit).symm
  subst hrecs
  have hdel : sourceDeletes ks2 emptyStore = emptyStore := rfl
  rw [hdel] at hrr
  have := extract_restore_records
    (s1.knowledge.filter (fun r => r.1 == ks2)) recs2 emptyStore s2 hxr hrr
  rw [this]
  rfl

/-- C6 corrected: when the restore of the extracted snapshot of a loaded
store into a fresh store succeeds, the fresh knowledge rows are the post
load rows of the source with the entity id injected into each payload under
the id key; they equal the original rows exactly when every loaded payload
already maps id to its entity id. The restore step itself fails whenever
any record carries a references field, because of the two placeholder
publications INSERT. -/
theorem c6_round_trip_injects_id (r : Remote) (s0 : Store) (snap : Json) (s2 : Store)
    (hx : extractSnapshot r.source (loadCommitted r s0) = .ok snap)
    (hr : restoreRun snap emptyStore = .ok s2) :
    s2.knowledge = ((loadCommitted r s0).knowledge.filter
        (fun row => row.1 == r.source)).map
        (fun row => (r.source, row.2.1, injectIdTotal row.2.1 row.2.2)) ∧
      ((∀ row ∈ (loadCommitted r s0).knowledge.filter (fun row => row.1 == r.source),
          pyGetItem row.2.2 "id" = .ok row.2.1) →
        s2.knowledge = (loadCommitted r s0).knowledge.filter
          (fun row => row.1 == r.source)) := by
  have h1 := extract_restore_knowledge hx hr
  refine ⟨h1, ?_⟩
  intro hid
  rw [h1]
  have hcong : ∀ row ∈ (loadCommitted r s0).knowledge.filter (fun row => row.1 == r.source),
      (r.source, row.2.1, injectIdTotal row.2.1 row.2.2) = row := by
    intro row hrow
    have hsrc : row.1 = r.source := by
      have := List.of_mem_filter hrow
      simpa using this
    have hid2 := hid row hrow
    have hrowpay : injectIdTotal row.2.1 row.2.2 = row.2.2 := by
      cases hp : row.2.2 with
      | obj kvs =>
          rw [hp] at hid2
          cases hl : kvLookup kvs "id" with
          | none => simp [pyGetItem, hl] at hid2
          | some w =>
              have hw : w = row.2.1 := by simpa [pyGetItem, hl] using hid2
              subst hw
              simp [injectIdTotal, setKeyKvs_self hl]
      | null => rw [hp] at hid2; simp [pyGetItem] at hid2
      | bool b => rw [hp] at hid2; simp [pyGetItem] at hid2
      | num n => rw [hp] at hid2; simp [pyGetItem] at hid2
      | str s3 => rw [hp] at hid2; simp [pyGetItem] at hid2
      | arr xs => rw [hp] at hid2; simp [pyGetItem] at hid2
    rw [hrowpay, ← hsrc]
  calc ((loadCommitted r s0).knowledge.filter (fun row => row.1 == r.source)).map
        (fun row => (r.source, row.2.1, injectIdTotal row.2.1 row.2.2))
      = ((loadCommitted r s0).knowledge.filter (fun row => row.1 == r.source)).map id := by
        exact List.map_congr_left hcong
    _ = _ := List.map_id _

/-- C2 amended: load commits the deletion of the rows of the source before
the path loop starts (source lines 53 to 55), so a failure inside the fetch
loop leaves the committed store equal to the pre operation store with the
knowledge and connectivity_nodes rows of the source removed, while the run
reports the error of the failed fetch. -/
theorem c2_load_deletes_commit_before_loop (r : Remote) (s : Store) (e : Err)
    (hav : r.available = true)
    (hfail : loadFetchLoop r.fetch r.source (sourceDeletes r.source s) r.paths = .error e) :
    loadCommitted r s = sourceDeletes r.source s ∧ loadRun r s = .error e := by
  have hres : resolveSource r = .ok r.source := by simp [resolveSource, hav]
  constructor
  · simp [loadCommitted, hres, hfail]
  · simp [loadRun, hres, hfail]

theorem c2_witness :
    remoteC2.available = true ∧
      loadFetchLoop remoteC2.fetch remoteC2.source
        (sourceDeletes remoteC2.source storeC2) remoteC2.paths = .error .fetchError ∧
      loadCommitted remoteC2 storeC2 = sourceDeletes remoteC2.source storeC2 ∧
      loadRun remoteC2 storeC2 = .error .fetchError :=
  ⟨rfl, by decide,
    (c2_load_deletes_commit_before_loop remoteC2 storeC2 .fetchError rfl (by decide)).1,
    (c2_load_deletes_commit_before_loop remoteC2 storeC2 .fetchError rfl (by decide)).2⟩

/-- C2 counterexample: with one path whose fetch fails, against a store
holding a knowledge row of the source, the failed load leaves a store that
is not byte identical to the pre operation store: the deletions were
committed before the loop. -/
theorem c2_counterexample :
    loadRun remoteC2 storeC2 = .error .fetchError ∧
      loadCommitted remoteC2 storeC2 ≠ storeC2 ∧
      loadCommitted remoteC2 storeC2 = sourceDeletes (.str "s2") storeC2 := by
  refine ⟨by decide, by decide, by decide⟩

/-- C7: an unreachable remote makes load fail with RemoteUnavailableError
at source resolution, before any deletion, leaving every table of the store
untouched. -/
theorem c7_unavailable_remote_no_mutation (r : Remote) (s : Store)
    (hun : r.available = false) :
    loadRun r s = .error .remoteUnavailable ∧ loadCommitted r s = s := by
  have hres : resolveSource r = .error .remoteUnavailable := by
    simp [resolveSource, hun]
  constructor
  · simp [loadRun, hres]
  · simp [loadCommitted, hres]

theorem c7_witness :
    remoteC7.available = false ∧
      loadRun remoteC7 storeC2 = .error .remoteUnavailable ∧
      loadCommitted remoteC7 storeC2 = storeC2 :=
  ⟨rfl, (c7_unavailable_remote_no_mutation remoteC7 storeC2 rfl).1,
    (c7_unavailable_remote_no_mutation remoteC7 storeC2 rfl).2⟩

/-- C3: the code cannot realise the claimed replace semantics. The
publications INSERT of source line 132 names three columns but carries two
placeholders, so a record with a references key, even an empty list,
aborts the restore at statement preparation; the transaction rolls back and
the stale publication row for (s3, e3) survives untouched. -/
theorem c3_references_insert_is_broken :
    restoreRun snapC3 storeC3 = .error .sqlError ∧
      restoreResult snapC3 storeC3 = storeC3 ∧
      (restoreResult snapC3 storeC3).publications
        = [(.str "s3", .str "e3", .str "OLD")] := by
  refine ⟨by decide, by decide, by decide⟩

/-- C4: restoring the exact snapshot of the claim into an empty store does
not yield the claimed five rows: the record carries references, the
publications INSERT fails at prepare because of its two placeholders for
three named columns, and the rolled back store stays empty. -/
theorem c4_concrete_restore_fails :
    restoreRun snapC4 emptyStore = .error .sqlError ∧
      restoreResult snapC4 emptyStore = emptyStore := by
  refine ⟨by decide, by decide⟩

/-- C1 counterexample: a snapshot whose two records, of distinct entities,
both reference the node ["T", []] produces two connectivity_nodes rows for
that (source, node) pair, not one: the seen set of source line 135 is reset
for every record, so deduplication is per record, not across the whole
restore of the source. -/
theorem c1_counterexample :
    ((restoreResult snapC1 emptyStore).connectivity_nodes.filter
        (fun c => c.1 == .str "s1" && c.2.1 == nodeT)).length = 2 ∧
      ¬ ((restoreResult snapC1 emptyStore).connectivity_nodes.filter
        (fun c => c.1 == .str "s1" && c.2.1 == nodeT)).length = 1 := by
  refine ⟨by decide, by decide⟩

theorem c1_witness :
    restoreRun snapC1 emptyStore = .ok (restoreResult snapC1 emptyStore) ∧
      pyGetItem snapC1 "source" = .ok (.str "s1") ∧
      (((restoreResult snapC1 emptyStore).connectivity_nodes.filter
          (fun c => c.1 == .str "s1" && c.2.2 == .str "a")).map (fun c => c.2.1)).Nodup :=
  ⟨by decide, by decide,
    c1_nodes_distinct_per_entity snapC1 emptyStore (restoreResult snapC1 emptyStore)
      (.str "s1") (.str "a") (by decide) (by decide)⟩

theorem c5_witness :
    snapC5 = Json.obj [("source", .str "s5"), ("knowledge", .arr ([preC5] ++ recC5 :: []))] ∧
      pyGetItem recC5 "connectivity" = .ok (.num 5) ∧
      pyIter (.num 5) = .error .typeError ∧
      (restoreRun snapC5 storeC5).toOption = none ∧
      restoreResult snapC5 storeC5 = storeC5 :=
  ⟨by decide, by decide, rfl,
    (c5_malformed_restore_rolls_back storeC5 snapC5 (.str "s5") (.num 5) recC5 [preC5] []
      (by decide) (by decide) rfl).1,
    (c5_malformed_restore_rolls_back storeC5 snapC5 (.str "s5") (.num 5) recC5 [preC5] []
      (by decide) (by decide) rfl).2⟩

theorem c9_witness :
    UniqK storeC5.knowledge ∧
      (UniqK (restoreResult snapC1 storeC5).knowledge ∧
        UniqK (loadCommitted remoteC2 storeC5).knowledge ∧
        UniqK ((infoRun storeC5).2).knowledge ∧
        UniqK ((extractRun (.str "q") storeC5).2).knowledge) :=
  ⟨by decide, c9_source_entity_unique storeC5 snapC1 remoteC2 (.str "q") (by decide)⟩

theorem c10_witness :
    restoreRun snapC1 emptyStore = .ok (restoreResult snapC1 emptyStore) ∧
      pyGetItem snapC1 "source" = .ok (.str "s1") ∧
      rowC10 ∈ (restoreResult snapC1 emptyStore).knowledge ∧
      rowC10.1 = .str "s1" ∧
      pyGetItem rowC10.2.2 "id" = .ok rowC10.2.1 :=
  ⟨by decide, by decide, by decide, by decide,
    c10_restored_payload_keeps_id snapC1 emptyStore (restoreResult snapC1 emptyStore)
      (.str "s1") rowC10 (by decide) (by decide) (by decide) (by decide)⟩

theorem c6_witness :
    extractSnapshot remoteC6.source (loadCommitted remoteC6 emptyStore) = .ok snapC6 ∧
      restoreRun snapC6 emptyStore = .ok storeC6 ∧
      storeC6.knowledge = ((loadCommitted remoteC6 emptyStore).knowledge.filter
          (fun row => row.1 == remoteC6.source)).map
          (fun row => (remoteC6.source, row.2.1, injectIdTotal row.2.1 row.2.2)) :=
  ⟨by decide, by decide,
    (c6_round_trip_injects_id remoteC6 emptyStore snapC6 storeC6 (by decide) (by decide)).1⟩

/-- C6 counterexample: a loaded payload without an id field does not round
trip: extract injects the id, restore stores the enlarged payload, and the
fresh knowledge rows are not a permutation of the post load rows of the
source. -/
theorem c6_counterexample :
    extractSnapshot remoteC6.source (loadCommitted remoteC6 emptyStore) = .ok snapC6 ∧
      restoreRun snapC6 emptyStore = .ok storeC6 ∧
      ¬ List.Perm storeC6.knowledge
        ((loadCommitted remoteC6 emptyStore).knowledge.filter
          (fun row => row.1 == remoteC6.source)) := by
  refine ⟨by decide, by decide, ?_⟩
  have h3 : ((loadCommitted remoteC6 emptyStore).knowledge.filter
      (fun row => row.1 == remoteC6.source)) = [(.str "s6", .str "p6", .obj [])] := by
    decide
  rw [h3]
  intro hperm
  have := List.perm_singleton.mp hperm
  exact absurd this (by decide)
